import Mathlib

/-!
Verification of the Segment Scheduler and Idempotent Transcoding Pipeline
(editor.py / main.py) against its natural-language specification.
Python strings are modelled as `List Char`, float durations as `ℚ`,
machine side effects (subprocesses, the file system, the uploader) as
explicit parameters/outcomes.
-/

/-- Models Python `int()` applied to a float: truncation toward zero
(floor for nonnegative values, ceiling for negative ones). -/
def pyInt (q : ℚ) : ℤ := if q < 0 then ⌈q⌉ else ⌊q⌋

/-- Models Python `range(0, stop, step)` for `step ≥ 1`: the ascending
multiples of `step` below `stop` (empty when `stop ≤ 0`). -/
def pyRange (stop : ℤ) (step : ℕ) : List ℕ :=
  (List.range ((stop.toNat + step - 1) / step)).map (fun j => j * step)

/-- Models Python floor division `//` on integers. -/
def pyFloorDiv (a b : ℤ) : ℤ := Int.fdiv a b

/-- One planned segment, as computed in the loop body of
`Editor.crop_video_to_clips` (editor.py lines 157-170). -/
structure SegmentDescriptor where
  start : ℚ
  duration : ℚ
  part_num : ℕ
  total_parts : ℤ
  deriving Repr, DecidableEq

/-- The segment planner of `Editor.crop_video_to_clips` (editor.py lines
156-170): for `i in range(0, int(total_duration), segment_length)`,
`start = i`, `end = min(i + segment_length, total_duration)`,
`duration = end - start`, `part_num = i // segment_length + 1`,
`total_parts = int(total_duration) // segment_length + 1`.  The part label
rendered into the overlay and description is `Part part_num/total_parts`. -/
def crop_video_to_clips (total_duration : ℚ) (segment_length : ℕ) :
    List SegmentDescriptor :=
  (pyRange (pyInt total_duration) segment_length).map (fun (i : ℕ) =>
    { start := (i : ℚ)
      duration := min ((i : ℚ) + (segment_length : ℚ)) total_duration - (i : ℚ)
      part_num := Nat.div i segment_length + 1
      total_parts := pyFloorDiv (pyInt total_duration) (segment_length : ℤ) + 1 })

/-- The single-quote character (code point 39), used by the ffmpeg
`drawtext` argument delimiters in editor.py lines 104 and 107. -/
def quoteChar : Char := Char.ofNat 39

/-- The backslash character (code point 92), the escape character of the
transformer's text-overlay syntax. -/
def backslashChar : Char := Char.ofNat 92

/-- Decimal value of a digit character. -/
def digitVal (c : Char) : ℕ := c.toNat - 48

/-- Value of a string of decimal digits. -/
def digitsToNat (s : List Char) : ℕ :=
  s.foldl (fun acc c => 10 * acc + digitVal c) 0

/-- The minus sign character. -/
def minusChar : Char := Char.ofNat 45

/-- The plus sign character. -/
def plusChar : Char := Char.ofNat 43

/-- The dot character. -/
def dotChar : Char := Char.ofNat 46

/-- Parses an unsigned decimal number: digits, optionally followed by a
dot and further digits; at least one digit overall. -/
def parseUnsigned (s : List Char) : Option ℚ :=
  let ip := s.takeWhile Char.isDigit
  let rest := s.drop ip.length
  match rest with
  | [] => if ip.isEmpty then none else some ((digitsToNat ip : ℚ))
  | c :: frac =>
    if c = dotChar ∧ frac.all Char.isDigit ∧ (¬ ip.isEmpty ∨ ¬ frac.isEmpty) then
      some ((digitsToNat ip : ℚ) + (digitsToNat frac : ℚ) / ((10 : ℚ) ^ frac.length))
    else none

/-- Models Python `float(s)` on plain decimal literals (an optional sign
followed by a decimal number).  editor.py line 63 applies it to ffprobe's
stripped standard output.  Exotic accepted forms of the builtin
(exponents, inf, nan) are outside the behaviors exercised here. -/
def pyFloat (s : List Char) : Option ℚ :=
  match s with
  | [] => none
  | c :: rest =>
    if c = minusChar then (parseUnsigned rest).map (fun q => -q)
    else if c = plusChar then parseUnsigned rest
    else parseUnsigned s

/-- Models Python `str.strip()`: removes whitespace from both ends. -/
def pyStrip (s : List Char) : List Char :=
  ((s.dropWhile Char.isWhitespace).reverse.dropWhile Char.isWhitespace).reverse

/-- Failure modes of `_get_video_duration` (editor.py lines 48-63): the
ffprobe executable may be unavailable (`create_subprocess_exec` raises),
or its output may fail to parse (`float(...)` raises `ValueError`). -/
inductive ProbeError where
  | unavailable
  | unparseable
  deriving Repr, DecidableEq

/-- Outcome of launching the ffprobe subprocess: either the executable is
unavailable, or it ran and produced the given standard output (an
unreadable file yields empty/unparseable output). -/
inductive SubprocResult where
  | unavailable
  | output (stdout : List Char)
  deriving Repr, DecidableEq

/-- Models `Editor._get_video_duration` (editor.py lines 48-63): runs ffprobe,
reads stdout, and returns `float(stdout.decode().strip())`.  A raised
exception is modelled as `Except.error`. -/
def get_video_duration : SubprocResult → Except ProbeError ℚ
  | .unavailable => .error .unavailable
  | .output s =>
    match pyFloat (pyStrip s) with
    | none => .error .unparseable
    | some d => .ok d

/-- Models `Editor._segment_exists` (editor.py lines 35-46): false when no file
exists at the output path; otherwise probes the duration and compares with
the expected duration under a 1.0 second tolerance; any exception inside
the `try` (in particular a probe failure) is logged and yields false. -/
def segment_exists (exists_at_path : Bool) (probe : SubprocResult)
    (expected_duration : ℚ) : Bool :=
  if exists_at_path = false then false
  else
    match get_video_duration probe with
    | .error _ => false
    | .ok actual => decide (|actual - expected_duration| < 1)

/-- Per-segment failure modes of `_process_segment` (editor.py lines
73-145): the `RuntimeError` raised on a non-zero ffmpeg exit code (line
136), or a failure raised by the uploader call. -/
inductive PipelineError where
  | transcode (code : ℤ)
  | upload
  deriving Repr, DecidableEq

/-- The environment one `_process_segment` task runs against: whether a
file already exists at the target output path, the ffprobe outcome used by
the cache check, the descriptor's expected duration, the ffmpeg
subprocess's return code when a transcode is attempted, the uploader
outcome, and the file state (size in bytes, `none` when absent) at the
target output path at the time the `finally` block runs. -/
structure SegmentEnv where
  exists_at_path : Bool
  probe : SubprocResult
  expected_duration : ℚ
  returncode : ℤ
  upload_outcome : Except Unit (List Char)
  file_at_finally : Option ℕ

/-- The `finally` block of `_process_segment` (editor.py lines 143-145):
if the target file exists with size 0, it is removed. -/
def finally_cleanup (file : Option ℕ) : Option ℕ :=
  if file = some 0 then none else file

/-- Models `Editor._process_segment` (editor.py lines 73-145), as a function of
its environment: on a cache hit the existing artifact is uploaded; on a
miss, ffmpeg runs and a non-zero return code raises (the `except` clause
at lines 140-142 logs and re-raises, so every error propagates out of the
task); otherwise the fresh artifact is uploaded.  Returns the task's
outcome together with the file state at the target path after the
`finally` block. -/
def process_segment (env : SegmentEnv) :
    Except PipelineError (List Char) × Option ℕ :=
  let result : Except PipelineError (List Char) :=
    if segment_exists env.exists_at_path env.probe env.expected_duration then
      match env.upload_outcome with
      | .ok r => .ok r
      | .error _ => .error .upload
    else if env.returncode ≠ 0 then .error (.transcode env.returncode)
    else
      match env.upload_outcome with
      | .ok r => .ok r
      | .error _ => .error .upload
  (result, finally_cleanup env.file_at_finally)

/-- Models `asyncio.gather(*tasks)` with the default
`return_exceptions=False` (main.py line 54): if every task succeeds the
list of results is returned in submission order; if any task raises, the
gather call itself raises one of the raised exceptions instead of
returning any sibling result (this embedding surfaces the positionally
first error; which error surfaces does not affect the properties below). -/
def asyncio_gather {E A : Type} : List (Except E A) → Except E (List A)
  | [] => .ok []
  | .error e :: _ => .error e
  | .ok a :: rest =>
    match asyncio_gather rest with
    | .ok as_ => .ok (a :: as_)
    | .error e => .error e

/-- One iteration of the per-video loop in `main` (main.py lines 45-60):
the segment tasks of one asset are gathered; an exception escaping the
gather is caught by the per-video `except`, logged, and turned into
`continue`, reporting nothing for that asset (`none`). -/
def run_asset (segs : List SegmentEnv) : Option (List (List Char)) :=
  match asyncio_gather (segs.map (fun e => (process_segment e).1)) with
  | .ok rs => some rs
  | .error _ => none

/-- The per-video loop of `main` (main.py lines 45-60): each downloaded
asset is processed in its own try/except, so the run continues over all
assets regardless of per-asset failures. -/
def main_run (videos : List (List SegmentEnv)) : List (Option (List (List Char))) :=
  videos.map run_asset

/-- Phase of one segment task with respect to the admission gate
(`async with self.semaphore`, editor.py line 84): `ready` before entering,
`checking` while holding a slot and running the cache check (line 87),
`working` while holding a slot and running the transcode-or-reuse and
upload steps (lines 88-138), `done` after the slot is released. -/
inductive Phase where
  | ready
  | checking
  | working
  | done
  deriving Repr, DecidableEq

/-- State of the bounded-concurrency executor: the gate capacity
(`max_concurrent_tasks`, editor.py lines 17, 22-23) and the phase of each
pending segment task. -/
structure GateSys where
  cap : ℕ
  tasks : List Phase
  deriving Repr, DecidableEq

/-- Whether a task in this phase holds a gate slot. -/
def holdsSlot : Phase → Bool
  | .checking => true
  | .working => true
  | _ => false

/-- Number of gate slots currently held. -/
def held (s : GateSys) : ℕ := s.tasks.countP holdsSlot

/-- Initial state: capacity `cap`, `n` segment tasks pending. -/
def initSys (cap n : ℕ) : GateSys := ⟨cap, List.replicate n Phase.ready⟩

/-- Interleaving semantics of the segment tasks under
`asyncio.Semaphore(max_concurrent_tasks)`: a task may acquire a slot only
when fewer than `cap` slots are held (the semaphore's contract), then runs
its cache check, then its transcode-or-reuse and upload work, and releases
the slot when it leaves the `async with` block.  In the source (editor.py
lines 84-87) the acquire happens before the cache check. -/
inductive GateStep : GateSys → GateSys → Prop where
  | acquire (s : GateSys) (i : ℕ) (hp : s.tasks[i]? = some Phase.ready)
      (hcap : held s < s.cap) : GateStep s ⟨s.cap, s.tasks.set i Phase.checking⟩
  | check (s : GateSys) (i : ℕ) (hp : s.tasks[i]? = some Phase.checking) :
      GateStep s ⟨s.cap, s.tasks.set i Phase.working⟩
  | finish (s : GateSys) (i : ℕ) (hp : s.tasks[i]? = some Phase.working) :
      GateStep s ⟨s.cap, s.tasks.set i Phase.done⟩

/-- States reachable from `n` pending tasks under capacity `cap`. -/
def GateReachable (cap n : ℕ) (s : GateSys) : Prop :=
  Relation.ReflTransGen GateStep (initSys cap n) s

/-- The caption text as inserted into the drawtext overlay argument
(editor.py line 104): `main_text[:2200]`, verbatim (no escaping). -/
def inserted_caption (main_text : List Char) : List Char := main_text.take 2200

/-- The `-vf` argument text before the inserted caption (editor.py lines
102-104, up to and including the opening quote of the caption). -/
def vf_head : List Char :=
  ("format=yuv420p,scale_cuda=1280:720,drawtext=text=").toList ++ [quoteChar]

/-- The `-vf` argument text between the inserted caption and the inserted
part label (editor.py lines 104-107). -/
def vf_mid : List Char :=
  [quoteChar] ++ ":fontsize=70:fontcolor=white:font=".toList ++ [quoteChar]
    ++ "Arial-Bold".toList ++ [quoteChar]
    ++ ":borderw=1:bordercolor=black:x=(w-text_w)/2:y=h*0.08,drawtext=text=".toList
    ++ [quoteChar]

/-- The `-vf` argument text after the inserted part label (editor.py lines
107-109). -/
def vf_tail : List Char :=
  [quoteChar] ++ ":fontsize=60:fontcolor=white:font=".toList ++ [quoteChar]
    ++ "Arial-Bold".toList ++ [quoteChar]
    ++ ":borderw=1:bordercolor=black:x=(w-text_w)/2:y=h-h*0.08-60".toList

/-- The full `-vf` filter argument built at editor.py lines 101-110: the
caption is truncated to 2200 characters and spliced in verbatim; the part
label is spliced in whole. -/
def vf_string (main_text part_info : List Char) : List Char :=
  vf_head ++ inserted_caption main_text ++ vf_mid ++ part_info ++ vf_tail

/-- Checks that every occurrence of the single-quote character in the
text is escaped, i.e. preceded by a backslash; the first argument carries
the previous character of the scan. -/
def no_unescaped_quote : Option Char → List Char → Bool
  | _, [] => true
  | prev, c :: rest =>
    (if c = quoteChar then decide (prev = some backslashChar) else true)
      && no_unescaped_quote (some c) rest

/-- Whether every single quote in the text is escaped with a backslash. -/
def all_quotes_escaped (s : List Char) : Bool := no_unescaped_quote none s

/-- The `Editor`'s configuration state set in `__init__` (editor.py lines
11-28); only the fields relevant to the claims are retained. -/
structure Editor where
  hw_accel : List Char
  segment_length : ℕ
  max_concurrent_tasks : ℕ
  deriving Repr, DecidableEq

/-- The accepted hardware-acceleration methods of `_validate_hw_accel`
(editor.py line 31). -/
def valid_methods : List (List Char) :=
  ["vdpau".toList, "cuda".toList, "vaapi".toList, "qsv".toList,
   "drm".toList, "opencl".toList, "vulkan".toList]

/-- Models Python `str.lower()` for the hw_accel argument. -/
def pyLower (s : List Char) : List Char := s.map Char.toLower

/-- Models `Editor.__init__` together with `_validate_hw_accel` (editor.py lines
11-33): lowercases `hw_accel`, stores the configuration, and raises
`ValueError` when the lowered value is not among the seven accepted
methods. -/
def mkEditor (hw_accel : List Char) (segment_length : ℕ)
    (max_concurrent_tasks : ℕ) : Except (List Char) Editor :=
  let h := pyLower hw_accel
  if h ∈ valid_methods then
    .ok { hw_accel := h, segment_length := segment_length,
          max_concurrent_tasks := max_concurrent_tasks }
  else .error ("Invalid HW acceleration".toList)

/-- One element of the ffmpeg argument list: a plain string, or a numeric
argument that line 98/100 of editor.py renders with `str(...)`. -/
inductive FfmpegArg where
  | s (v : List Char)
  | num (v : ℚ)
  deriving Repr, DecidableEq

/-- The ffmpeg argument list built at editor.py lines 92-118.  The list is
written out literally from the source: it never consults
`ed.hw_accel` — the `-hwaccel cuda` pair is hardcoded. -/
def build_ffmpeg_cmd (ed : Editor) (start duration : ℚ)
    (video_path main_text part_info output_path : List Char) : List FfmpegArg :=
  [ .s ("ffmpeg".toList),
    .s ("-loglevel".toList), .s ("verbose".toList),
    .s ("-hwaccel".toList), .s ("cuda".toList),
    .s ("-hwaccel_output_format".toList), .s ("cuda".toList),
    .s ("-extra_hw_frames".toList), .s ("2".toList),
    .s ("-ss".toList), .num start,
    .s ("-i".toList), .s video_path,
    .s ("-t".toList), .num duration,
    .s ("-vf".toList), .s (vf_string main_text part_info),
    .s ("-c:v".toList), .s ("libx264".toList),
    .s ("-preset".toList), .s ("veryfast".toList),
    .s ("-movflags".toList), .s ("+faststart".toList),
    .s ("-c:a".toList), .s ("aac".toList),
    .s ("-b:a".toList), .s ("128k".toList),
    .s ("-y".toList), .s output_path ]

/-- C4: the cache existence check returns false when no file exists at the
target path; when the probe errors it returns false (fail-open); when the
probe succeeds on an existing file it returns true exactly when the probed
duration is within 1.0 of the descriptor's duration. -/
theorem cache_check_policy (ex : Bool) (pr : SubprocResult) (expected : ℚ) :
    (ex = false → segment_exists ex pr expected = false) ∧
    (∀ err : ProbeError, get_video_duration pr = .error err →
      segment_exists ex pr expected = false) ∧
    (∀ d : ℚ, get_video_duration pr = .ok d →
      (segment_exists true pr expected = true ↔ |d - expected| < 1)) := by
  refine ⟨?_, ?_, ?_⟩
  · intro h
    simp [segment_exists, h]
  · intro err h
    by_cases hex : ex = false
    · simp [segment_exists, hex]
    · simp [segment_exists, hex, h]
  · intro d h
    simp [segment_exists, h]

/-- Witness for C4 at a concrete probe output. -/
theorem cache_check_policy_witness :
    segment_exists false (SubprocResult.output ("7".toList)) 7 = false ∧
    (segment_exists true (SubprocResult.output ("7".toList)) 7 = true
      ↔ |(7 : ℚ) - 7| < 1) :=
  ⟨(cache_check_policy false (SubprocResult.output ("7".toList)) 7).1 rfl,
   (cache_check_policy false (SubprocResult.output ("7".toList)) 7).2.2 7 (by rfl)⟩

/-- C5: whenever the transcode subprocess exits non-zero (on a cache
miss, so the transcode actually ran), the error propagates out of the
segment task and, after the `finally` block, the target path holds no
zero-byte file. -/
theorem zero_byte_cleanup (env : SegmentEnv)
    (hmiss : segment_exists env.exists_at_path env.probe env.expected_duration = false)
    (hrc : env.returncode ≠ 0) :
    (process_segment env).1 = .error (.transcode env.returncode) ∧
    (process_segment env).2 ≠ some 0 := by
  constructor
  · simp [process_segment, hmiss, hrc]
  · show finally_cleanup env.file_at_finally ≠ some 0
    unfold finally_cleanup
    split
    · simp
    · next h => exact h

/-- Witness for C5: a failed transcode that left a zero-byte file. -/
theorem zero_byte_cleanup_witness :
    (process_segment ⟨false, .output [], 180, 1, .ok ("id".toList), some 0⟩).1
        = .error (.transcode 1) ∧
    (process_segment ⟨false, .output [], 180, 1, .ok ("id".toList), some 0⟩).2
        ≠ some 0 :=
  zero_byte_cleanup ⟨false, .output [], 180, 1, .ok ("id".toList), some 0⟩
    rfl (by decide)

/-- C9 counterexample: ffprobe output `"0"` parses, so the probe returns
successfully with duration 0, which is not a positive duration — the code
never checks positivity, contrary to the claim. -/
theorem probe_contract_cex :
    get_video_duration (SubprocResult.output ("0".toList)) = .ok 0 ∧
    ¬ (0 : ℚ) < (0 : ℚ) := by
  constructor
  · rfl
  · simp

/-- C9 amended: the probe fails when the inspector is unavailable or its
output does not parse as a decimal number; when it returns successfully
the result is exactly the number parsed from the stripped output (which
need not be positive). -/
theorem probe_contract (pr : SubprocResult) :
    (pr = .unavailable → get_video_duration pr = .error .unavailable) ∧
    (∀ s, pr = .output s → pyFloat (pyStrip s) = none →
      get_video_duration pr = .error .unparseable) ∧
    (∀ d : ℚ, get_video_duration pr = .ok d →
      ∃ s, pr = .output s ∧ pyFloat (pyStrip s) = some d) := by
  refine ⟨?_, ?_, ?_⟩
  · intro h
    subst h
    rfl
  · intro s h hp
    subst h
    simp [get_video_duration, hp]
  · intro d h
    cases pr with
    | unavailable => simp [get_video_duration] at h
    | output s =>
      refine ⟨s, rfl, ?_⟩
      cases hp : pyFloat (pyStrip s) with
      | none =>
        have hh : get_video_duration (.output s) = .error .unparseable := by
          simp [get_video_duration, hp]
        rw [hh] at h
        simp at h
      | some q =>
        have hh : get_video_duration (.output s) = .ok q := by
          simp [get_video_duration, hp]
        rw [hh] at h
        simp at h
        rw [h]

/-- Witness for C9: an unavailable inspector and an unparseable output. -/
theorem probe_contract_witness :
    get_video_duration SubprocResult.unavailable = .error .unavailable ∧
    get_video_duration (SubprocResult.output ("x".toList)) = .error .unparseable :=
  ⟨(probe_contract SubprocResult.unavailable).1 rfl,
   (probe_contract (SubprocResult.output ("x".toList))).2.1 ("x".toList) rfl (by rfl)⟩

/-- C8 counterexample: a caption containing a single quote is inserted
into the drawtext argument with the quote unescaped, and a 100-character
caption is not truncated to any 50-character legibility bound. -/
theorem caption_sanitization_cex :
    all_quotes_escaped
        (inserted_caption ("it".toList ++ [quoteChar] ++ "s".toList)) = false ∧
    (inserted_caption (List.replicate 100 (Char.ofNat 97))).length = 100 := by
  constructor
  · rfl
  · decide

/-- C8 amended: the caption is spliced into the drawtext argument
verbatim (no escaping of any character), truncated to 2200 characters —
the publish-description budget, not a 50-character legibility bound — and
the part label is spliced in whole, never truncated. -/
theorem caption_sanitization (main_text part_info : List Char) :
    vf_string main_text part_info
      = vf_head ++ inserted_caption main_text ++ vf_mid ++ part_info ++ vf_tail ∧
    inserted_caption main_text = main_text.take 2200 ∧
    (inserted_caption main_text).length ≤ 2200 ∧
    (main_text.length ≤ 2200 → inserted_caption main_text = main_text) := by
  refine ⟨rfl, rfl, ?_, ?_⟩
  · simpa [inserted_caption] using List.length_take_le 2200 main_text
  · intro h
    simpa [inserted_caption] using List.take_of_length_le h

/-- Witness for C8 at a concrete caption and part label. -/
theorem caption_sanitization_witness :
    ("abc".toList.length ≤ 2200 ∧ inserted_caption ("abc".toList) = "abc".toList) :=
  ⟨by decide, (caption_sanitization ("abc".toList) ("Part 1/2".toList)).2.2.2 (by decide)⟩

/-- C10: the hardware-acceleration setting admits exactly seven values,
is validated (after lowercasing) only at construction, and never
influences the transcode invocation: any two successfully constructed
editors produce the identical ffmpeg argument list, which always contains
the hardcoded `-hwaccel cuda` pair. -/
theorem hw_accel_independence :
    valid_methods.length = 7 ∧
    ∀ (h₁ h₂ : List Char) (sl₁ sl₂ m₁ m₂ : ℕ) (e₁ e₂ : Editor),
      mkEditor h₁ sl₁ m₁ = .ok e₁ → mkEditor h₂ sl₂ m₂ = .ok e₂ →
      e₁.hw_accel ∈ valid_methods ∧
      ∀ (start duration : ℚ) (vp mt pif op : List Char),
        build_ffmpeg_cmd e₁ start duration vp mt pif op
          = build_ffmpeg_cmd e₂ start duration vp mt pif op ∧
        ∃ l r, build_ffmpeg_cmd e₁ start duration vp mt pif op
          = l ++ [FfmpegArg.s ("-hwaccel".toList), FfmpegArg.s ("cuda".toList)] ++ r := by
  refine ⟨rfl, ?_⟩
  intro h₁ h₂ sl₁ sl₂ m₁ m₂ e₁ e₂ he₁ he₂
  have hmem : e₁.hw_accel ∈ valid_methods := by
    have he₁' : (if pyLower h₁ ∈ valid_methods then
          (Except.ok (Editor.mk (pyLower h₁) sl₁ m₁) : Except (List Char) Editor)
        else .error ("Invalid HW acceleration".toList)) = .ok e₁ := he₁
    split at he₁'
    · next hc =>
      cases he₁'
      exact hc
    · simp at he₁'
  refine ⟨hmem, ?_⟩
  intro start duration vp mt pif op
  refine ⟨rfl, ?_⟩
  exact ⟨[.s ("ffmpeg".toList), .s ("-loglevel".toList), .s ("verbose".toList)],
    (build_ffmpeg_cmd e₁ start duration vp mt pif op).drop 5, rfl⟩

/-- Witness for C10: two concretely constructed editors with different
acceleration settings yield the same command. -/
theorem hw_accel_independence_witness :
    (Editor.mk ("cuda".toList) 180 3).hw_accel ∈ valid_methods ∧
    build_ffmpeg_cmd (Editor.mk ("cuda".toList) 180 3) 0 180 [] [] [] []
      = build_ffmpeg_cmd (Editor.mk ("vdpau".toList) 180 3) 0 180 [] [] [] [] ∧
    ∃ l r, build_ffmpeg_cmd (Editor.mk ("cuda".toList) 180 3) 0 180 [] [] [] []
      = l ++ [FfmpegArg.s ("-hwaccel".toList), FfmpegArg.s ("cuda".toList)] ++ r := by
  have h := hw_accel_independence.2 ("cuda".toList) ("VDPAU".toList) 180 180 3 3
    (Editor.mk ("cuda".toList) 180 3) (Editor.mk ("vdpau".toList) 180 3)
    (by rfl) (by rfl)
  exact ⟨h.1, (h.2 0 180 [] [] [] []).1, (h.2 0 180 [] [] [] []).2⟩

/-- Helper: `asyncio.gather` without `return_exceptions` surfaces an
error whenever any of the gathered tasks raised. -/
lemma gather_error_of_mem {E A : Type} (l : List (Except E A)) (x : Except E A)
    (e : E) (hx : x ∈ l) (hxe : x = .error e) :
    ∃ e', asyncio_gather l = .error e' := by
  induction l with
  | nil => cases hx
  | cons hd tl ih =>
    cases hx with
    | head => subst hxe; exact ⟨e, rfl⟩
    | tail _ hmem =>
      cases hd with
      | error e0 => exact ⟨e0, rfl⟩
      | ok a =>
        obtain ⟨e', he'⟩ := ih hmem
        exact ⟨e', by simp [asyncio_gather, he']⟩

/-- C2 amended: a failing segment task re-raises its error, so the
per-asset gather reports no per-segment results for that asset (siblings'
results are discarded, not recorded individually); the per-asset handler
in `main` catches the error, and the overall run continues unchanged over
all other assets. -/
theorem failure_isolation (pre post : List (List SegmentEnv))
    (segs : List SegmentEnv) (env : SegmentEnv) (err : PipelineError)
    (hmem : env ∈ segs) (herr : (process_segment env).1 = .error err) :
    run_asset segs = none ∧
    main_run (pre ++ segs :: post) = main_run pre ++ none :: main_run post := by
  have hx : (process_segment env).1 ∈ segs.map (fun e => (process_segment e).1) :=
    List.mem_map_of_mem _ hmem
  obtain ⟨e', he'⟩ := gather_error_of_mem _ _ err hx herr
  have hra : run_asset segs = none := by simp [run_asset, he']
  exact ⟨hra, by simp [main_run, hra]⟩

/-- C2 counterexample: five segments of one asset, all of which would
succeed except segment 2, whose transcode exits with code 1.  The
per-asset gather reports nothing (`none`): segments 1, 3, 4, 5 are not
reported as successes, contrary to the claim, even though each would
succeed in isolation. -/
theorem failure_isolation_cex :
    run_asset
      [⟨false, .output [], 180, 0, .ok ("a".toList), some 5⟩,
       ⟨false, .output [], 180, 1, .ok ("b".toList), some 5⟩,
       ⟨false, .output [], 180, 0, .ok ("c".toList), some 5⟩,
       ⟨false, .output [], 180, 0, .ok ("d".toList), some 5⟩,
       ⟨false, .output [], 180, 0, .ok ("e".toList), some 5⟩] = none ∧
    (process_segment ⟨false, .output [], 180, 0, .ok ("a".toList), some 5⟩).1
      = .ok ("a".toList) ∧
    (process_segment ⟨false, .output [], 180, 1, .ok ("b".toList), some 5⟩).1
      = .error (.transcode 1) := by
  refine ⟨rfl, rfl, rfl⟩

/-- Witness for C2 at a concrete one-failing-segment asset list. -/
theorem failure_isolation_witness :
    run_asset [⟨false, .output [], 180, 1, .ok ("b".toList), some 5⟩] = none ∧
    main_run ([] ++ [⟨false, .output [], 180, 1, .ok ("b".toList), some 5⟩] :: [])
      = main_run [] ++ none :: main_run [] :=
  failure_isolation [] [] [⟨false, .output [], 180, 1, .ok ("b".toList), some 5⟩]
    ⟨false, .output [], 180, 1, .ok ("b".toList), some 5⟩ (.transcode 1)
    (List.mem_singleton.mpr rfl) rfl

/-- Helper: effect of an in-place phase update on an occurrence count. -/
lemma countP_set_add {α : Type} (p : α → Bool) :
    ∀ (l : List α) (i : ℕ) (a b : α), l[i]? = some a →
      (l.set i b).countP p + (if p a then 1 else 0)
        = l.countP p + (if p b then 1 else 0) := by
  intro l
  induction l with
  | nil => intro i a b h; simp at h
  | cons c t ih =>
    intro i a b h
    cases i with
    | zero =>
      simp at h
      subst h
      simp [List.countP_cons]
      omega
    | succ m =>
      simp at h
      have := ih m a b h
      simp [List.countP_cons]
      omega

/-- Helper: occurrence counts are monotone in the predicate. -/
lemma countP_le_of_imp {α : Type} (p q : α → Bool)
    (h : ∀ a, p a = true → q a = true) :
    ∀ l : List α, l.countP p ≤ l.countP q := by
  intro l
  induction l with
  | nil => simp
  | cons c t ih =>
    simp [List.countP_cons]
    by_cases hc : p c = true
    · have := h c hc
      simp [hc, this]
      omega
    · simp at hc
      simp [hc]
      split <;> omega

/-- Helper: one gate step preserves the slot-count bound and the
capacity. -/
lemma gate_step_held {s s' : GateSys} (h : GateStep s s') (hs : held s ≤ s.cap) :
    held s' ≤ s'.cap ∧ s'.cap = s.cap := by
  cases h with
  | acquire i hp hcap =>
    have hc := countP_set_add holdsSlot s.tasks i Phase.ready Phase.checking hp
    simp [holdsSlot] at hc
    refine ⟨?_, rfl⟩
    simp [held] at hcap ⊢
    omega
  | check i hp =>
    have hc := countP_set_add holdsSlot s.tasks i Phase.checking Phase.working hp
    simp [holdsSlot] at hc
    refine ⟨?_, rfl⟩
    simp [held] at hs ⊢
    omega
  | finish i hp =>
    have hc := countP_set_add holdsSlot s.tasks i Phase.working Phase.done hp
    simp [holdsSlot] at hc
    refine ⟨?_, rfl⟩
    simp [held] at hs ⊢
    omega

/-- Helper: in every reachable state the held slots never exceed the
configured capacity, which never changes. -/
lemma gate_reachable_inv (cap n : ℕ) (s : GateSys) (h : GateReachable cap n s) :
    held s ≤ s.cap ∧ s.cap = cap := by
  unfold GateReachable at h
  induction h with
  | refl =>
    refine ⟨?_, rfl⟩
    have h0 : (List.replicate n Phase.ready).countP holdsSlot = 0 := by
      apply List.countP_eq_zero.mpr
      intro a ha
      rw [List.eq_of_mem_replicate ha]
      simp [holdsSlot]
    simp [initSys, held, h0]
  | tail _ hbc ih =>
    obtain ⟨h1, h2⟩ := ih
    obtain ⟨h3, h4⟩ := gate_step_held hbc h1
    exact ⟨h3, h4.trans h2⟩

/-- C3: with the admission gate at capacity `cap`, in every state
reachable from `n` pending segment tasks at most `cap` gate slots are
held, and in particular at most `cap` transcode-or-reuse critical
sections execute concurrently. -/
theorem concurrency_bound (cap n : ℕ) (s : GateSys) (h : GateReachable cap n s) :
    held s ≤ cap ∧
    s.tasks.countP (fun p => decide (p = Phase.working)) ≤ cap := by
  obtain ⟨h1, h2⟩ := gate_reachable_inv cap n s h
  rw [h2] at h1
  refine ⟨h1, ?_⟩
  have hm : s.tasks.countP (fun p => decide (p = Phase.working))
      ≤ s.tasks.countP holdsSlot := by
    apply countP_le_of_imp
    intro a ha
    simp at ha
    subst ha
    rfl
  exact hm.trans h1

/-- Witness for C3: the default capacity 3 with 5 pending segments. -/
theorem concurrency_bound_witness :
    held (initSys 3 5) ≤ 3 ∧
    (initSys 3 5).tasks.countP (fun p => decide (p = Phase.working)) ≤ 3 :=
  concurrency_bound 3 5 (initSys 3 5) Relation.ReflTransGen.refl

/-- C6 counterexample: capacity 1 with two segment tasks.  After task 0
acquires the single slot and proceeds into its work, the state
`⟨1, [working, ready]⟩` is reachable, and from it no step advances task 1:
in particular task 1's cache check cannot proceed while the gate is full,
because in the code the slot is acquired before the cache check
(editor.py lines 84-87), contrary to the claim. -/
theorem gate_scope_cex :
    GateReachable 1 2 ⟨1, [Phase.working, Phase.ready]⟩ ∧
    ¬ ∃ s', GateStep ⟨1, [Phase.working, Phase.ready]⟩ s' ∧
        s'.tasks[1]? ≠ some Phase.ready := by
  constructor
  · have h1 : GateStep (initSys 1 2) ⟨1, [Phase.checking, Phase.ready]⟩ := by
      have h := GateStep.acquire (initSys 1 2) 0 (by rfl) (by decide)
      simpa [initSys] using h
    have h2 : GateStep ⟨1, [Phase.checking, Phase.ready]⟩
        ⟨1, [Phase.working, Phase.ready]⟩ := by
      have h := GateStep.check ⟨1, [Phase.checking, Phase.ready]⟩ 0 (by rfl)
      simpa using h
    exact Relation.ReflTransGen.head h1
      (Relation.ReflTransGen.head h2 Relation.ReflTransGen.refl)
  · rintro ⟨s', hstep, hne⟩
    cases hstep with
    | acquire i hp hcap => exact absurd hcap (by decide)
    | check i hp =>
      rcases i with _ | _ | i <;> simp at hp
    | finish i hp =>
      rcases i with _ | _ | i
      · exact hne rfl
      · simp at hp
      · simp at hp

/-- C6 amended: in the code the gate slot is acquired before the cache
existence check (the `async with` at editor.py line 84 encloses the check
at line 87), so the check runs inside the gated section; consequently,
while all `cap` slots are held, a segment task that has not yet acquired
a slot cannot advance at all — its cache check waits on the gate. -/
theorem gate_scope (s s' : GateSys) (i : ℕ)
    (hready : s.tasks[i]? = some Phase.ready)
    (hfull : held s = s.cap) (hstep : GateStep s s') :
    s'.tasks[i]? = some Phase.ready := by
  cases hstep with
  | acquire j hp hcap => omega
  | check j hp =>
    have hji : j ≠ i := by
      intro h
      subst h
      rw [hready] at hp
      simp at hp
    show (s.tasks.set j Phase.working)[i]? = some Phase.ready
    rw [List.getElem?_set_ne hji]
    exact hready
  | finish j hp =>
    have hji : j ≠ i := by
      intro h
      subst h
      rw [hready] at hp
      simp at hp
    show (s.tasks.set j Phase.done)[i]? = some Phase.ready
    rw [List.getElem?_set_ne hji]
    exact hready

/-- Witness for C6 at a concrete full-gate state and step. -/
theorem gate_scope_witness :
    (⟨1, [Phase.working, Phase.ready]⟩ : GateSys).tasks[1]? = some Phase.ready ∧
    held ⟨1, [Phase.working, Phase.ready]⟩
      = (⟨1, [Phase.working, Phase.ready]⟩ : GateSys).cap ∧
    (⟨1, [Phase.done, Phase.ready]⟩ : GateSys).tasks[1]? = some Phase.ready :=
  ⟨rfl, by decide,
    gate_scope ⟨1, [Phase.working, Phase.ready]⟩ ⟨1, [Phase.done, Phase.ready]⟩ 1
      rfl (by decide)
      (by simpa using GateStep.finish ⟨1, [Phase.working, Phase.ready]⟩ 0 (by rfl))⟩

/-- Helper: the planner applied to a natural total duration, with the
range/map composition flattened. -/
lemma crop_natCast (n L : ℕ) :
    crop_video_to_clips (n : ℚ) L
      = (List.range ((n + L - 1) / L)).map (fun (j : ℕ) =>
          { start := ((j * L : ℕ) : ℚ)
            duration := min (((j * L : ℕ) : ℚ) + (L : ℚ)) (n : ℚ) - ((j * L : ℕ) : ℚ)
            part_num := Nat.div (j * L) L + 1
            total_parts := pyFloorDiv (n : ℤ) (L : ℤ) + 1 }) := by
  have h1 : pyInt (n : ℚ) = (n : ℤ) := by
    simp [pyInt]
  simp [crop_video_to_clips, pyRange, h1, List.map_map]

/-- Helper: the planned descriptor count, for a positive duration. -/
lemma cnt_eq (n L : ℕ) (hn : 0 < n) (hL : 0 < L) :
    (n + L - 1) / L = (n - 1) / L + 1 := by
  have h : n + L - 1 = (n - 1) + L := by omega
  rw [h, Nat.add_div_right _ hL]

/-- Helper: every planned start offset lies below the total duration. -/
lemma start_lt (n L j : ℕ) (hn : 0 < n) (hL : 0 < L)
    (hj : j < (n + L - 1) / L) : j * L < n := by
  rw [cnt_eq n L hn hL] at hj
  have hj' : j ≤ (n - 1) / L := by omega
  have := (Nat.le_div_iff_mul_le hL).mp hj'
  omega

/-- Helper: the segment index of any offset below the duration is a
valid descriptor index. -/
lemma lt_cnt_of_floor (n L m : ℕ) (hn : 0 < n) (hL : 0 < L) (hm : m < n) :
    m / L < (n + L - 1) / L := by
  rw [cnt_eq n L hn hL]
  have : m / L ≤ (n - 1) / L := Nat.div_le_div_right (by omega)
  omega

/-- Helper: an offset lies below the end of its own segment. -/
lemma floor_lt_mul (m L : ℕ) (hL : 0 < L) : m < m / L * L + L := by
  have h := Nat.div_add_mod m L
  have h2 := Nat.mod_lt m hL
  rw [Nat.mul_comm L (m / L)] at h
  omega

/-- C1 amended: for a positive integer total duration and a positive
segment length, the planned descriptors all have positive duration, are
pairwise disjoint (each ends no later than the next starts), and their
intervals cover exactly the rationals in `[0, total_duration)`. -/
theorem planning_coverage (n L : ℕ) (hn : 0 < n) (hL : 0 < L) :
    (∀ d ∈ crop_video_to_clips (n : ℚ) L, 0 < d.duration) ∧
    List.Pairwise (fun d₁ d₂ => d₁.start + d₁.duration ≤ d₂.start)
      (crop_video_to_clips (n : ℚ) L) ∧
    ∀ q : ℚ, (0 ≤ q ∧ q < (n : ℚ)) ↔
      ∃ d ∈ crop_video_to_clips (n : ℚ) L, d.start ≤ q ∧ q < d.start + d.duration := by
  rw [crop_natCast n L]
  refine ⟨?_, ?_, ?_⟩
  · intro d hd
    simp only [List.mem_map, List.mem_range] at hd
    obtain ⟨j, hj, rfl⟩ := hd
    show (0 : ℚ) < min (((j * L : ℕ) : ℚ) + (L : ℚ)) (n : ℚ) - ((j * L : ℕ) : ℚ)
    have hjn : j * L < n := start_lt n L j hn hL hj
    have h1 : ((j * L : ℕ) : ℚ) < ((j * L : ℕ) : ℚ) + (L : ℚ) := by
      have hL' : (0 : ℚ) < (L : ℚ) := by exact_mod_cast hL
      linarith
    have h2 : ((j * L : ℕ) : ℚ) < (n : ℚ) := by exact_mod_cast hjn
    have h3 := lt_min h1 h2
    linarith
  · rw [List.pairwise_map]
    refine (List.pairwise_lt_range ((n + L - 1) / L)).imp ?_
    intro j₁ j₂ hlt
    show ((j₁ * L : ℕ) : ℚ)
        + (min (((j₁ * L : ℕ) : ℚ) + (L : ℚ)) (n : ℚ) - ((j₁ * L : ℕ) : ℚ))
      ≤ ((j₂ * L : ℕ) : ℚ)
    have hle : (j₁ + 1) * L ≤ j₂ * L := Nat.mul_le_mul_right L hlt
    have hcast : (((j₁ + 1) * L : ℕ) : ℚ) ≤ ((j₂ * L : ℕ) : ℚ) := by exact_mod_cast hle
    have hmin : min (((j₁ * L : ℕ) : ℚ) + (L : ℚ)) (n : ℚ)
        ≤ ((j₁ * L : ℕ) : ℚ) + (L : ℚ) := min_le_left _ _
    have heq : ((j₁ * L : ℕ) : ℚ) + (L : ℚ) = (((j₁ + 1) * L : ℕ) : ℚ) := by
      push_cast
      ring
    linarith
  · intro q
    constructor
    · rintro ⟨hq0, hqn⟩
      have hql : ((⌊q⌋₊ : ℕ) : ℚ) ≤ q := Nat.floor_le hq0
      have hqu : q < ((⌊q⌋₊ : ℕ) : ℚ) + 1 := Nat.lt_floor_add_one q
      have hmn : ⌊q⌋₊ < n := (Nat.floor_lt hq0).mpr hqn
      refine ⟨_, List.mem_map_of_mem _
        (List.mem_range.mpr (lt_cnt_of_floor n L ⌊q⌋₊ hn hL hmn)), ?_, ?_⟩
      · show ((⌊q⌋₊ / L * L : ℕ) : ℚ) ≤ q
        have h1 : ⌊q⌋₊ / L * L ≤ ⌊q⌋₊ := Nat.div_mul_le_self ⌊q⌋₊ L
        have h2 : ((⌊q⌋₊ / L * L : ℕ) : ℚ) ≤ ((⌊q⌋₊ : ℕ) : ℚ) := by exact_mod_cast h1
        linarith
      · show q < ((⌊q⌋₊ / L * L : ℕ) : ℚ)
          + (min (((⌊q⌋₊ / L * L : ℕ) : ℚ) + (L : ℚ)) (n : ℚ) - ((⌊q⌋₊ / L * L : ℕ) : ℚ))
        have h2 : ⌊q⌋₊ < ⌊q⌋₊ / L * L + L := floor_lt_mul ⌊q⌋₊ L hL
        have h2q : ((⌊q⌋₊ : ℕ) : ℚ) + 1 ≤ ((⌊q⌋₊ / L * L : ℕ) : ℚ) + (L : ℚ) := by
          have h3 : ⌊q⌋₊ + 1 ≤ ⌊q⌋₊ / L * L + L := by omega
          exact_mod_cast h3
        have hlt1 : q < ((⌊q⌋₊ / L * L : ℕ) : ℚ) + (L : ℚ) := by linarith
        have h4 := lt_min hlt1 hqn
        linarith
    · rintro ⟨d, hd, hd1, hd2⟩
      simp only [List.mem_map, List.mem_range] at hd
      obtain ⟨j, hj, rfl⟩ := hd
      have hd1' : ((j * L : ℕ) : ℚ) ≤ q := hd1
      have hd2' : q < ((j * L : ℕ) : ℚ)
          + (min (((j * L : ℕ) : ℚ) + (L : ℚ)) (n : ℚ) - ((j * L : ℕ) : ℚ)) := hd2
      have h3 : min (((j * L : ℕ) : ℚ) + (L : ℚ)) (n : ℚ) ≤ (n : ℚ) := min_le_right _ _
      have h0 : (0 : ℚ) ≤ ((j * L : ℕ) : ℚ) := Nat.cast_nonneg _
      exact ⟨by linarith, by linarith⟩

/-- Witness for C1 at the spec's example `duration=400`,
`segment_length=180`. -/
theorem planning_coverage_witness :
    0 < 400 ∧
    ((∀ d ∈ crop_video_to_clips ((400 : ℕ) : ℚ) 180, 0 < d.duration) ∧
     List.Pairwise (fun d₁ d₂ => d₁.start + d₁.duration ≤ d₂.start)
       (crop_video_to_clips ((400 : ℕ) : ℚ) 180) ∧
     ∀ q : ℚ, (0 ≤ q ∧ q < ((400 : ℕ) : ℚ)) ↔
       ∃ d ∈ crop_video_to_clips ((400 : ℕ) : ℚ) 180,
         d.start ≤ q ∧ q < d.start + d.duration) :=
  ⟨by decide, planning_coverage 400 180 (by decide) (by decide)⟩

/-- C1 counterexample: for `total_duration = 180.5` and
`segment_length = 180` the point `180` lies in `[0, 180.5)` but no
planned descriptor covers it — the loop bound `int(total_duration)`
drops the fractional tail whenever the integer part is a multiple of the
segment length (and, for durations below 1, the whole interval). -/
theorem planning_coverage_cex :
    ((0 : ℚ) ≤ 180 ∧ (180 : ℚ) < 361 / 2) ∧
    ¬ ∃ d ∈ crop_video_to_clips (361 / 2 : ℚ) 180,
        d.start ≤ (180 : ℚ) ∧ (180 : ℚ) < d.start + d.duration := by
  constructor
  · constructor <;> norm_num
  · have hInt : pyInt (361 / 2 : ℚ) = 180 := by
      unfold pyInt
      rw [if_neg (by norm_num)]
      rw [Int.floor_eq_iff]
      constructor <;> norm_num
    rintro ⟨d, hd, hd1, hd2⟩
    simp only [crop_video_to_clips, hInt] at hd
    have hpr : pyRange 180 180 = [0] := by decide
    rw [hpr] at hd
    simp only [List.map_cons, List.map_nil, List.mem_singleton] at hd
    subst hd
    norm_num [min_def] at hd2

/-- C7 amended: for a positive integer total duration not an exact
multiple of the segment length, the planner's part numbers are dense
`1..N` in plan order, and the label denominator
`int(total_duration) // L + 1` stored in every descriptor equals the
number of descriptors actually produced. -/
theorem part_labels (n L : ℕ) (hn : 0 < n) (hL : 0 < L) (hnd : ¬ L ∣ n) :
    (crop_video_to_clips (n : ℚ) L).map SegmentDescriptor.part_num
      = (List.range (crop_video_to_clips (n : ℚ) L).length).map (fun k => k + 1) ∧
    ∀ d ∈ crop_video_to_clips (n : ℚ) L,
      d.total_parts = ((crop_video_to_clips (n : ℚ) L).length : ℤ) := by
  have hlen : (crop_video_to_clips (n : ℚ) L).length = (n + L - 1) / L := by
    rw [crop_natCast n L]
    simp
  have htot : pyFloorDiv (n : ℤ) (L : ℤ) + 1 = (((n + L - 1) / L : ℕ) : ℤ) := by
    have h1 : pyFloorDiv (n : ℤ) (L : ℤ) = ((n / L : ℕ) : ℤ) := by
      cases n with
      | zero =>
        show Int.fdiv 0 (L : ℤ) = ((0 / L : ℕ) : ℤ)
        rw [Nat.zero_div]
        rfl
      | succ m => rfl
    rw [h1, cnt_eq n L hn hL]
    have h2 : n / L = (n - 1) / L := by
      obtain ⟨m, hm⟩ : ∃ m, n = m + 1 := ⟨n - 1, by omega⟩
      subst hm
      rw [Nat.succ_div]
      simp [hnd]
    rw [h2]
    push_cast
    ring
  constructor
  · rw [hlen, crop_natCast n L, List.map_map]
    have hfun : (SegmentDescriptor.part_num ∘ fun (j : ℕ) =>
        ({ start := ((j * L : ℕ) : ℚ)
           duration := min (((j * L : ℕ) : ℚ) + (L : ℚ)) (n : ℚ) - ((j * L : ℕ) : ℚ)
           part_num := Nat.div (j * L) L + 1
           total_parts := pyFloorDiv (n : ℤ) (L : ℤ) + 1 } : SegmentDescriptor))
        = fun k => k + 1 := by
      funext j
      show j * L / L + 1 = j + 1
      rw [Nat.mul_div_cancel j hL]
    rw [hfun]
  · intro d hd
    rw [crop_natCast n L] at hd
    simp only [List.mem_map, List.mem_range] at hd
    obtain ⟨j, hj, rfl⟩ := hd
    show pyFloorDiv (n : ℤ) (L : ℤ) + 1 = ((crop_video_to_clips (n : ℚ) L).length : ℤ)
    rw [hlen, htot]

/-- Witness for C7 at the spec's example `duration=400`,
`segment_length=180` (three descriptors, labels `Part 1/3 .. Part 3/3`). -/
theorem part_labels_witness :
    (0 < 400 ∧ 0 < 180 ∧ ¬ (180 ∣ 400)) ∧
    ((crop_video_to_clips ((400 : ℕ) : ℚ) 180).map SegmentDescriptor.part_num
      = (List.range (crop_video_to_clips ((400 : ℕ) : ℚ) 180).length).map (fun k => k + 1) ∧
     ∀ d ∈ crop_video_to_clips ((400 : ℕ) : ℚ) 180,
       d.total_parts = ((crop_video_to_clips ((400 : ℕ) : ℚ) 180).length : ℤ)) :=
  ⟨⟨by decide, by decide, by decide⟩,
   part_labels 400 180 (by decide) (by decide) (by decide)⟩

/-- C7 counterexample: at `total_duration = 360`, `segment_length = 180`
(an exact multiple) the planner emits 2 descriptors, yet each carries
`total_parts = 360 // 180 + 1 = 3`, so every label reads `Part k/3` while
only 2 parts exist — the denominator does not equal the descriptor
count. -/
theorem part_labels_cex :
    (crop_video_to_clips ((360 : ℕ) : ℚ) 180).length = 2 ∧
    ∃ d ∈ crop_video_to_clips ((360 : ℕ) : ℚ) 180, d.total_parts = 3 := by
  decide
